import Mathlib

/-!
Verification of the IRC protocol plumbing of the CS594IRC repository
(`src/IRC/Schema.py`, `src/IRC/Message.py`, `src/IRC/Handler.py`).

The Python code is shallowly embedded:

* JSON values (`JVal`) model the Python dict/list/str/bool/int/None values
  produced by `json.loads` and fed to `jsonschema.validate`.
* `validate` is a direct transcription of `jsonschema.validate(_, IRC.Schema.DEFN)`,
  keyword by keyword (`oneOf` = exactly one subschema matches, `properties`
  constrains only keys that are present, `required`, `type`, `enum`, `pattern`,
  `minItems`, `uniqueItems`).  The `pattern` keyword uses Python `re.search`
  semantics: since every pattern in the schema is written `^...$`, a string
  matches iff its body matches, or its body followed by a single trailing
  newline matches (Python `$` also matches just before a final newline).
* `dumps` models `json.dumps(msg, separators=(',', ':'))` (compact, `ensure_ascii`).
* `SBState` and its operations model `SocketBuffer`; `splitFrame` / `ditchFrame`
  model the two regexes of `SocketBuffer.__getMsg` / `getMsg`.
* `receiveMsg` models `IRCHandler.receiveMsg`, recording which byte strings are
  handed to `processIRCMsg` and how many times `connectionDrop` fires.
-/

/-- JSON values as produced by `json.loads` / consumed by `json.dumps`. -/
inductive JVal where
  | jnull
  | jbool (b : Bool)
  | jnum (n : Int)
  | jstr (s : String)
  | jarr (items : List JVal)
  | jobj (fields : List (String × JVal))

mutual

/-- Structural equality on JSON values (Python `==` on like-typed values). -/
def JVal.beq : JVal → JVal → Bool
  | .jnull, .jnull => true
  | .jbool a, .jbool b => a == b
  | .jnum a, .jnum b => a == b
  | .jstr a, .jstr b => a == b
  | .jarr xs, .jarr ys => JVal.beqList xs ys
  | .jobj fs, .jobj gs => JVal.beqObj fs gs
  | _, _ => false

def JVal.beqList : List JVal → List JVal → Bool
  | [], [] => true
  | x :: xs, y :: ys => JVal.beq x y && JVal.beqList xs ys
  | _, _ => false

def JVal.beqObj : List (String × JVal) → List (String × JVal) → Bool
  | [], [] => true
  | (k, v) :: xs, (l, w) :: ys => k == l && JVal.beq v w && JVal.beqObj xs ys
  | _, _ => false

end

instance : BEq JVal := ⟨JVal.beq⟩

/-- Dictionary lookup (`d[k]` presence test / access); Python dicts have unique keys. -/
def getField : List (String × JVal) → String → Option JVal
  | [], _ => none
  | (k, v) :: rest, key => if k = key then some v else getField rest key

/-- `[a-zA-Z0-9]` (ASCII classes, as in Python `re` on byte strings). -/
def isAlnumAscii (c : Char) : Bool :=
  (('a' ≤ c) && (c ≤ 'z')) || (('A' ≤ c) && (c ≤ 'Z')) || (('0' ≤ c) && (c ≤ '9'))

/-- Body of `IRC.Schema.NICK = '[a-zA-Z0-9]{1,10}'`. -/
def nickCore (l : List Char) : Bool :=
  decide (1 ≤ l.length) && decide (l.length ≤ 10) && l.all isAlnumAscii

/-- Body of `IRC.Schema.CHANNEL = '#[a-zA-Z0-9]{1,10}'`. -/
def channelCore : List Char → Bool
  | [] => false
  | c :: rest => (c = '#') && nickCore rest

/-- Python `re.search('^' + core + '$', s)`: anchored match, where `$` also
matches immediately before a trailing newline. -/
def pyAnchored (core : List Char → Bool) (s : String) : Bool :=
  core s.data ||
    (match s.data.getLast? with
     | some c => (c = '\n') && core s.data.dropLast
     | none => false)

def matchesNick (s : String) : Bool := pyAnchored nickCore s

def matchesChannel (s : String) : Bool := pyAnchored channelCore s

/-- `oneOf`: exactly one subschema validates. -/
def exactlyOne (l : List Bool) : Bool := (l.countP id) = 1

/-- A `properties` entry: constrains the key only when it is present. -/
def propOk (fs : List (String × JVal)) (k : String) (check : JVal → Bool) : Bool :=
  match getField fs k with
  | none => true
  | some v => check v

/-- `required`: all listed keys present. -/
def requiredOk (fs : List (String × JVal)) (ks : List String) : Bool :=
  ks.all (fun k => (getField fs k).isSome)

/-- `{'type': 'string'}`. -/
def isStrB : JVal → Bool
  | .jstr _ => true
  | _ => false

/-- `{'enum': [...]}` over string constants. -/
def enumStr (vals : List String) : JVal → Bool
  | .jstr s => vals.contains s
  | _ => false

/-- `uniqueItems: true` (JSON equality). -/
def nodupB : List JVal → Bool
  | [] => true
  | x :: xs => (!xs.contains x) && nodupB xs

/-- `{'type':'array', 'items': it, 'minItems': m, 'uniqueItems': u}`. -/
def arrOk (it : JVal → Bool) (m : Nat) (u : Bool) : JVal → Bool
  | .jarr xs => xs.all it && decide (m ≤ xs.length) && (!u || nodupB xs)
  | _ => false

/-- `#/target/user`. -/
def vTargetUser (v : JVal) : Bool :=
  match v with
  | .jstr s => matchesNick s
  | _ => false

/-- `#/target/channel`. -/
def vTargetChannel (v : JVal) : Bool :=
  match v with
  | .jstr s => matchesChannel s
  | _ => false

/-- `#/targets`: oneOf user / channel. -/
def vTargets (v : JVal) : Bool :=
  exactlyOne [vTargetUser v, vTargetChannel v]

/-- `#/cmds/nick`. -/
def vNick (v : JVal) : Bool :=
  match v with
  | .jobj fs =>
      propOk fs "cmd" (enumStr ["nick"]) && propOk fs "update" isStrB &&
        requiredOk fs ["update"]
  | _ => false

/-- `#/cmds/quit`. -/
def vQuit (v : JVal) : Bool :=
  match v with
  | .jobj fs =>
      propOk fs "cmd" (enumStr ["quit"]) && propOk fs "msg" isStrB &&
        requiredOk fs ["msg"]
  | _ => false

/-- `#/cmds/squit`. -/
def vSQuit (v : JVal) : Bool :=
  match v with
  | .jobj fs =>
      propOk fs "cmd" (enumStr ["squit"]) && propOk fs "msg" isStrB &&
        requiredOk fs ["msg"]
  | _ => false

/-- `#/cmds/join`. -/
def vJoin (v : JVal) : Bool :=
  match v with
  | .jobj fs =>
      propOk fs "cmd" (enumStr ["join"]) &&
        propOk fs "channels" (arrOk (fun x => exactlyOne [vTargetChannel x]) 1 true) &&
        requiredOk fs ["channels"]
  | _ => false

/-- `#/cmds/leave`. -/
def vLeave (v : JVal) : Bool :=
  match v with
  | .jobj fs =>
      propOk fs "cmd" (enumStr ["leave"]) &&
        propOk fs "channels" (arrOk (fun x => exactlyOne [vTargetChannel x]) 1 true) &&
        propOk fs "msg" isStrB &&
        requiredOk fs ["channels", "msg"]
  | _ => false

/-- `#/cmds/channels` (note: no `required` list in the source schema). -/
def vChannelsCmd (v : JVal) : Bool :=
  match v with
  | .jobj fs => propOk fs "cmd" (enumStr ["channels"])
  | _ => false

/-- `#/cmds/users` (note: no `required` list in the source schema). -/
def vUsers (v : JVal) : Bool :=
  match v with
  | .jobj fs =>
      propOk fs "cmd" (enumStr ["users"]) &&
        propOk fs "channels" (arrOk (fun x => exactlyOne [vTargetChannel x]) 1 true)
  | _ => false

/-- `#/cmds/msg`. -/
def vMsgCmd (v : JVal) : Bool :=
  match v with
  | .jobj fs =>
      propOk fs "cmd" (enumStr ["msg"]) &&
        propOk fs "targets" (arrOk (fun x => exactlyOne [vTargets x]) 1 true) &&
        propOk fs "msg" isStrB &&
        requiredOk fs ["targets", "msg"]
  | _ => false

/-- `#/cmds/ping`. -/
def vPing (v : JVal) : Bool :=
  match v with
  | .jobj fs =>
      propOk fs "cmd" (enumStr ["ping"]) && propOk fs "msg" isStrB &&
        requiredOk fs ["msg"]
  | _ => false

/-- `#/cmds/pong`. -/
def vPong (v : JVal) : Bool :=
  match v with
  | .jobj fs =>
      propOk fs "cmd" (enumStr ["pong"]) && propOk fs "msg" isStrB &&
        requiredOk fs ["msg"]
  | _ => false

/-- `#/cmd`: the command wrapper. -/
def vCmd (v : JVal) : Bool :=
  match v with
  | .jobj fs =>
      propOk fs "cmd" isStrB &&
        propOk fs "src" (fun s => exactlyOne [vTargets s]) &&
        exactlyOne [vNick v, vQuit v, vSQuit v, vJoin v, vLeave v,
          vChannelsCmd v, vUsers v, vMsgCmd v, vPing v, vPong v] &&
        requiredOk fs ["cmd", "src"]
  | _ => false

/-- `#/errors/error`. -/
def vError (v : JVal) : Bool :=
  match v with
  | .jobj fs =>
      propOk fs "error" (enumStr ["badnick", "nickinuse", "schema", "nochannel",
        "badchannel", "nonmember", "member", "nonexist"]) &&
        propOk fs "msg" isStrB &&
        requiredOk fs ["error", "msg"]
  | _ => false

/-- `#/replies/names` (note: `channel` is not in its `required` list, and
`client` is not mentioned at all). -/
def vNamesReply (v : JVal) : Bool :=
  match v with
  | .jobj fs =>
      propOk fs "reply" (enumStr ["names"]) &&
        propOk fs "channel" (fun x => isStrB x && exactlyOne [vTargetChannel x]) &&
        propOk fs "names" (arrOk (fun x => exactlyOne [vTargetUser x]) 0 true) &&
        requiredOk fs ["reply", "names"]
  | _ => false

/-- `#/replies/channels`. -/
def vChannelsReply (v : JVal) : Bool :=
  match v with
  | .jobj fs =>
      propOk fs "reply" (enumStr ["channels"]) &&
        propOk fs "channels" (arrOk (fun x => exactlyOne [vTargetChannel x]) 0 true) &&
        requiredOk fs ["reply", "channels"]
  | _ => false

/-- `#/reply`: the reply wrapper. -/
def vReply (v : JVal) : Bool :=
  match v with
  | .jobj fs =>
      propOk fs "reply" isStrB &&
        exactlyOne [vChannelsReply v, vNamesReply v] &&
        requiredOk fs ["reply"]
  | _ => false

/-- `jsonschema.validate(v, IRC.Schema.DEFN)` as a Boolean:
oneOf cmd / error / reply. -/
def validate (v : JVal) : Bool :=
  exactlyOne [vCmd v, vError v, vReply v]

/-! ## `IRC.Message.IRCMessage` builders (src/IRC/Message.py) -/

def cmdNick (src nick : String) : JVal :=
  .jobj [("cmd", .jstr "nick"), ("src", .jstr src), ("update", .jstr nick)]

def cmdQuit (src msg : String) : JVal :=
  .jobj [("cmd", .jstr "quit"), ("src", .jstr src), ("msg", .jstr msg)]

def cmdSQuit (src msg : String) : JVal :=
  .jobj [("cmd", .jstr "squit"), ("src", .jstr src), ("msg", .jstr msg)]

def cmdJoin (src : String) (channels : List String) : JVal :=
  .jobj [("cmd", .jstr "join"), ("src", .jstr src),
    ("channels", .jarr (channels.map .jstr))]

def cmdLeave (src : String) (channels : List String) (msg : String) : JVal :=
  .jobj [("cmd", .jstr "leave"), ("src", .jstr src),
    ("channels", .jarr (channels.map .jstr)), ("msg", .jstr msg)]

def cmdChannels (src : String) : JVal :=
  .jobj [("cmd", .jstr "channels"), ("src", .jstr src)]

def cmdUsers (src : String) (channels : List String) : JVal :=
  .jobj [("cmd", .jstr "users"), ("src", .jstr src),
    ("channels", .jarr (channels.map .jstr))]

def cmdMsg (src msg : String) (targets : List String) : JVal :=
  .jobj [("cmd", .jstr "msg"), ("src", .jstr src), ("msg", .jstr msg),
    ("targets", .jarr (targets.map .jstr))]

def cmdPing (src msg : String) : JVal :=
  .jobj [("cmd", .jstr "ping"), ("src", .jstr src), ("msg", .jstr msg)]

def cmdPong (src msg : String) : JVal :=
  .jobj [("cmd", .jstr "pong"), ("src", .jstr src), ("msg", .jstr msg)]

def errorMsg (etype msg : String) : JVal :=
  .jobj [("error", .jstr etype), ("msg", .jstr msg)]

def replyChannels (channels : List String) : JVal :=
  .jobj [("reply", .jstr "channels"), ("channels", .jarr (channels.map .jstr))]

def replyNames (channel : String) (names : List String) : JVal :=
  .jobj [("reply", .jstr "names"), ("channel", .jstr channel),
    ("names", .jarr (names.map .jstr))]

/-- The message dictionaries produced by the `IRCMessage` builders. -/
inductive IsBuilderMsg : JVal → Prop
  | nick (src n : String) : IsBuilderMsg (cmdNick src n)
  | quit (src m : String) : IsBuilderMsg (cmdQuit src m)
  | squit (src m : String) : IsBuilderMsg (cmdSQuit src m)
  | join (src : String) (cs : List String) : IsBuilderMsg (cmdJoin src cs)
  | leave (src : String) (cs : List String) (m : String) :
      IsBuilderMsg (cmdLeave src cs m)
  | channels (src : String) : IsBuilderMsg (cmdChannels src)
  | users (src : String) (cs : List String) : IsBuilderMsg (cmdUsers src cs)
  | msg (src m : String) (ts : List String) : IsBuilderMsg (cmdMsg src m ts)
  | ping (src m : String) : IsBuilderMsg (cmdPing src m)
  | pong (src m : String) : IsBuilderMsg (cmdPong src m)
  | err (e m : String) : IsBuilderMsg (errorMsg e m)
  | rchannels (cs : List String) : IsBuilderMsg (replyChannels cs)
  | rnames (c : String) (ns : List String) : IsBuilderMsg (replyNames c ns)

/-! ## `json.dumps(msg, separators=(',', ':'))` (compact, `ensure_ascii=True`) -/

/-- Lower-case hex digit. -/
def hexDigit (k : Nat) : Char :=
  if k < 10 then Char.ofNat (48 + k) else Char.ofNat (97 + (k - 10))

/-- Four lower-case hex digits of a `\uXXXX` escape. -/
def hex4 (n : Nat) : List Char :=
  [hexDigit (n / 4096 % 16), hexDigit (n / 256 % 16),
   hexDigit (n / 16 % 16), hexDigit (n % 16)]

/-- How `json.dumps` (with `ensure_ascii`) renders one character: printable
ASCII passes through, known controls use two-character escapes, everything
else becomes `\uXXXX` (with a surrogate pair above the BMP). -/
def escChar (c : Char) : List Char :=
  if c = Char.ofNat 34 then [Char.ofNat 92, Char.ofNat 34]
  else if c = Char.ofNat 92 then [Char.ofNat 92, Char.ofNat 92]
  else if c = '\n' then [Char.ofNat 92, 'n']
  else if c = '\r' then [Char.ofNat 92, 'r']
  else if c = '\t' then [Char.ofNat 92, 't']
  else if c = Char.ofNat 8 then [Char.ofNat 92, 'b']
  else if c = Char.ofNat 12 then [Char.ofNat 92, 'f']
  else if 32 ≤ c.toNat && c.toNat ≤ 126 then [c]
  else if c.toNat ≤ 65535 then Char.ofNat 92 :: 'u' :: hex4 c.toNat
  else
    (Char.ofNat 92 :: 'u' :: hex4 (55296 + (c.toNat - 65536) / 1024)) ++
      (Char.ofNat 92 :: 'u' :: hex4 (56320 + (c.toNat - 65536) % 1024))

/-- Escape a string body. -/
def escString : List Char → List Char
  | [] => []
  | c :: cs => escChar c ++ escString cs

/-- A serialized JSON string, with surrounding quotes. -/
def dumpStr (s : String) : List Char :=
  Char.ofNat 34 :: escString s.data ++ [Char.ofNat 34]

/-- Decimal digits of a natural number (`fuel`-driven). -/
def digitsAux : Nat → Nat → List Char
  | 0, _ => []
  | fuel + 1, n =>
      if n = 0 then [] else digitsAux fuel (n / 10) ++ [Char.ofNat (48 + n % 10)]

/-- Decimal rendering of a natural number. -/
def dumpNat (n : Nat) : List Char :=
  if n = 0 then [Char.ofNat 48] else digitsAux n n

/-- Decimal rendering of a Python int. -/
def dumpInt : Int → List Char
  | .ofNat n => dumpNat n
  | .negSucc n => '-' :: dumpNat (n + 1)

mutual

/-- `json.dumps(v, separators=(',', ':'))` over the embedded JSON values.
Object fields are serialized in their stored order. -/
def dumps : JVal → List Char
  | .jnull => ['n', 'u', 'l', 'l']
  | .jbool true => ['t', 'r', 'u', 'e']
  | .jbool false => ['f', 'a', 'l', 's', 'e']
  | .jnum n => dumpInt n
  | .jstr s => dumpStr s
  | .jarr xs => '[' :: dumpsArr xs ++ [']']
  | .jobj fs => Char.ofNat 123 :: dumpsObj fs ++ [Char.ofNat 125]

def dumpsArr : List JVal → List Char
  | [] => []
  | [x] => dumps x
  | x :: y :: xs => dumps x ++ ',' :: dumpsArr (y :: xs)

def dumpsObj : List (String × JVal) → List Char
  | [] => []
  | [(k, v)] => dumpStr k ++ ':' :: dumps v
  | (k, v) :: f :: fs => dumpStr k ++ ':' :: dumps v ++ ',' :: dumpsObj (f :: fs)

end

/-! ## `IRC.Handler.SocketBuffer` (src/IRC/Handler.py) -/

/-- `MAX_JSON_MSG = 1024`. -/
def MAX_JSON_MSG : Nat := 1024

/-- `RWSIZE = select.PIPE_BUF` (4096 on Linux). -/
def RWSIZE : Nat := 4096

/-- A frame terminator character. -/
def isTerm (c : Char) : Bool := c = '\r' || c = '\n'

/-- `re.match("^([^\r\n]{0,1022})\r?\n(.*)$", buf, re.DOTALL)` of
`SocketBuffer.__getMsg`, returning `(group(1), group(2))`.  The greedy
`[^\r\n]{0,1022}` can only stop at the first terminator, so a match exists
iff the run of non-terminator characters has length at most 1022 and is
followed by `\n` or `\r\n`. -/
def splitFrame (s : List Char) : Option (List Char × List Char) :=
  let pre := s.takeWhile (fun c => !isTerm c)
  if 1022 < pre.length then none
  else
    match s.dropWhile (fun c => !isTerm c) with
    | '\n' :: tl => some (pre, tl)
    | '\r' :: '\n' :: tl => some (pre, tl)
    | _ => none

/-- `re.match("^[^\r\n]*?\r?\n(.*)$", buf, re.DOTALL)` of the `ditch` branch of
`SocketBuffer.getMsg`, returning `group(1)`: everything after the first
terminator sequence, if the buffer contains one. -/
def ditchFrame (s : List Char) : Option (List Char) :=
  match s.dropWhile (fun c => !isTerm c) with
  | '\n' :: tl => some tl
  | '\r' :: '\n' :: tl => some tl
  | _ => none

theorem splitFrame_eq_some {s m rest : List Char}
    (h : splitFrame s = some (m, rest)) :
    m = s.takeWhile (fun c => !isTerm c) ∧ m.length ≤ 1022 ∧
      (s = m ++ '\n' :: rest ∨ s = m ++ '\r' :: '\n' :: rest) := by
  unfold splitFrame at h
  simp only at h
  split at h
  · exact absurd h (by simp)
  · rename_i hlen
    split at h
    · rename_i heq
      obtain ⟨rfl, rfl⟩ := by simpa using h
      refine ⟨rfl, by omega, Or.inl ?_⟩
      conv_lhs => rw [← List.takeWhile_append_dropWhile (p := fun c => !isTerm c) (l := s)]
      rw [heq]
    · rename_i heq
      obtain ⟨rfl, rfl⟩ := by simpa using h
      refine ⟨rfl, by omega, Or.inr ?_⟩
      conv_lhs => rw [← List.takeWhile_append_dropWhile (p := fun c => !isTerm c) (l := s)]
      rw [heq]
    · exact absurd h (by simp)

theorem splitFrame_rest_lt {s m rest : List Char}
    (h : splitFrame s = some (m, rest)) : rest.length < s.length := by
  rcases (splitFrame_eq_some h).2.2 with h2 | h2 <;>
    · rw [h2]; simp [List.length_append]; omega

/-- `SocketBuffer` state: outbound buffer, inbound buffer, and the three
kill flags. -/
structure SBState where
  sendBuffer : List Char
  recvBuffer : List Char
  disconnect : Bool
  broken : Bool
  closed : Bool
deriving DecidableEq

/-- `SocketBuffer.__dead`. -/
def SBState.dead (st : SBState) : Bool :=
  st.disconnect || st.broken || st.closed

/-- `SocketBuffer.readyToSend`. -/
def SBState.readyToSend (st : SBState) : Bool :=
  !st.dead && decide (0 < st.sendBuffer.length)

/-- `SocketBuffer.addMessage`. -/
def SBState.addMessage (st : SBState) (m : List Char) : SBState :=
  if st.dead then st else { st with sendBuffer := st.sendBuffer ++ m }

/-- `SocketBuffer.send`.  `ok` is whether the underlying `socket.send` call
succeeds (no call is made when the buffer is dead or the payload empty).
Returns the bytes handed to `socket.send` and the new state; on a socket
error the buffer is already truncated and the state becomes broken. -/
def SBState.sendStep (st : SBState) (ok : Bool) : List Char × SBState :=
  if st.dead then ([], st)
  else
    let payload := st.sendBuffer.take RWSIZE
    let st2 := { st with sendBuffer := st.sendBuffer.drop RWSIZE }
    if payload.isEmpty then ([], st2)
    else if ok then (payload, st2)
    else ([], { st2 with broken := true })

/-- `SocketBuffer.recv`.  `r` is the outcome of the underlying `socket.recv`:
`none` for a raised `socket.error`, `some []` for a zero-byte read, and
`some data` for received bytes. -/
def SBState.recv (st : SBState) (r : Option (List Char)) : SBState :=
  if st.disconnect || st.broken then st
  else
    match r with
    | none => { st with broken := true, disconnect := true }
    | some [] => { st with disconnect := true }
    | some (c :: cs) => { st with recvBuffer := st.recvBuffer ++ c :: cs }

/-- Recursive core of `SocketBuffer.getMsg`, acting on the inbound buffer
given the dead flag.  Returns `none` for Python `None`, `some []` for the
disconnect sentinel `''`, and `some msg` for a message, together with the
updated inbound buffer. -/
def getMsgAux (dead : Bool) (buf : List Char) : Option (List Char) × List Char :=
  match h : splitFrame buf with
  | some (m, rest) =>
      if m.isEmpty then getMsgAux dead rest
      else (some m, rest)
  | none =>
      let buf2 :=
        if buf.isEmpty then buf
        else
          match ditchFrame buf with
          | none => buf.drop (buf.length - MAX_JSON_MSG)
          | some rest => rest
      if dead then (some [], buf2) else (none, buf2)
termination_by buf.length
decreasing_by exact splitFrame_rest_lt h

/-- `SocketBuffer.getMsg`. -/
def SBState.getMsgS (st : SBState) : Option (List Char) × SBState :=
  let p := getMsgAux st.dead st.recvBuffer
  (p.1, { st with recvBuffer := p.2 })

/-- `SocketBuffer.hasMsg`: the private regex matches, or the buffer is dead. -/
def SBState.hasMsg (st : SBState) : Bool :=
  (splitFrame st.recvBuffer).isSome || st.dead

/-- The flush loop of `SocketBuffer.close`: `while len(sendBuffer): send()`.
`oks` schedules the outcomes of the successive `socket.send` calls; `none`
means the schedule ran out before the loop exited (in particular, the loop
cannot exit once the buffer is dead with bytes left, since `send` then no
longer drains). -/
def closeLoop : List Bool → SBState → Option SBState
  | [], st => if st.sendBuffer.isEmpty then some st else none
  | ok :: rest, st =>
      if st.sendBuffer.isEmpty then some st
      else closeLoop rest (st.sendStep ok).2

/-- `SocketBuffer.close`: flush (if not dead), close the socket, set `closed`.
`none` means the flush loop did not terminate within the schedule. -/
def SBState.close (st : SBState) (oks : List Bool) : Option SBState :=
  if st.dead then some { st with closed := true }
  else (closeLoop oks st).map fun st2 => { st2 with closed := true }

/-! ## `IRC.Handler.IRCHandler` (src/IRC/Handler.py) -/

/-- The two failure payloads of `IRC.Exceptions.InvalidIRCMessage` as raised
by `IRCHandler.sendMsg`. -/
inductive SendErr where
  | tooLong
  | invalidMsg (m : JVal)

/-- `IRCHandler.sendMsg`: validate, serialize compactly, append CRLF, reject
frames over 1024 bytes, otherwise enqueue via `addMessage`. -/
def sendMsg (st : SBState) (msg : JVal) : Except SendErr SBState :=
  if validate msg then
    let jmsg := dumps msg ++ ['\r', '\n']
    if 1024 < jmsg.length then .error .tooLong
    else .ok (st.addMessage jmsg)
  else .error (.invalidMsg msg)

/-- Result of one `IRCHandler.receiveMsg` call: final buffer state, Python
return value (`none` models the bare `return` statements), number of
`connectionDrop` calls, and the byte strings handed to `processIRCMsg`. -/
structure RecvOutcome where
  state : SBState
  result : Option Bool
  drops : Nat
  processed : List (List Char)
deriving DecidableEq

theorem getMsgAux_cons_lt (d : Bool) :
    ∀ buf c m rest, getMsgAux d buf = (some (c :: m), rest) →
      rest.length < buf.length := by
  have key : ∀ n buf, buf.length ≤ n → ∀ c m rest,
      getMsgAux d buf = (some (c :: m), rest) → rest.length < buf.length := by
    intro n
    induction n with
    | zero =>
        intro buf hlen c m rest h
        have hb : buf = [] := List.eq_nil_of_length_eq_zero (by omega)
        subst hb
        rw [getMsgAux] at h
        split at h <;> cases d <;> simp_all [splitFrame]
    | succ n ih =>
        intro buf hlen c m rest h
        rw [getMsgAux] at h
        split at h
        · rename_i m0 rest0 hsplit
          have hlt := splitFrame_rest_lt hsplit
          split at h
          · exact lt_trans (ih rest0 (by omega) c m rest h) hlt
          · obtain ⟨h1, rfl⟩ : some m0 = some (c :: m) ∧ rest0 = rest := by
              simpa using h
            exact hlt
        · cases d <;> simp_all
  intro buf
  exact key buf.length buf le_rfl

/-- The `while socket.hasMsg()` loop of `IRCHandler.receiveMsg`, accumulating
the processed messages. -/
def receiveMsgLoop (st : SBState) (acc : List (List Char)) : RecvOutcome :=
  if st.hasMsg then
    match h : st.getMsgS with
    | (none, st2) => ⟨st2, none, 0, acc⟩
    | (some [], st2) => ⟨st2, none, 1, acc⟩
    | (some (c :: m), st2) => receiveMsgLoop st2 (acc ++ [c :: m])
  else ⟨st, some (decide (acc ≠ [])), 0, acc⟩
termination_by st.recvBuffer.length
decreasing_by
  have h2 : getMsgAux st.dead st.recvBuffer = (some (c :: m), st2.recvBuffer) := by
    have := congrArg (fun p : Option (List Char) × SBState => (p.1, p.2.recvBuffer)) h
    simpa [SBState.getMsgS] using this
  have h3 : st2.recvBuffer.length < st.recvBuffer.length :=
    getMsgAux_cons_lt st.dead st.recvBuffer c m st2.recvBuffer h2
  exact h3

/-- `IRCHandler.receiveMsg`: one `recv`, then drain messages. -/
def receiveMsg (st : SBState) (r : Option (List Char)) : RecvOutcome :=
  receiveMsgLoop (st.recv r) []

/-! ## Dispatch of `IRCHandler.processIRCMsg` (src/IRC/Handler.py) -/

/-- The keys of `self.__handlers['cmd']`. -/
def cmdKeys : List String :=
  ["nick", "quit", "squit", "join", "leave", "channels", "users", "ping",
   "pong", "msg"]

/-- The dict fields read by each command handler lambda in
`IRCHandler.__init__`. -/
def cmdReads : String → List String
  | "nick" => ["src", "update"]
  | "quit" => ["src", "msg"]
  | "squit" => ["msg"]
  | "join" => ["src", "channels"]
  | "leave" => ["src", "channels", "msg"]
  | "channels" => []
  | "users" => ["channels", "client"]
  | "ping" => ["msg"]
  | "pong" => ["msg"]
  | "msg" => ["src", "targets", "msg"]
  | _ => []

/-- The keys of `self.__handlers['reply']`. -/
def replyKeys : List String := ["channels", "names"]

/-- The dict fields read by each reply handler lambda. -/
def replyReads : String → List String
  | "channels" => ["channels"]
  | "names" => ["channel", "names", "client"]
  | _ => []

/-- The dict fields read by the error handler lambda. -/
def errReads : List String := ["error", "msg"]

/-- The dispatch step of `processIRCMsg` after successful validation: true iff
the handler-table lookup succeeds and every field the selected lambda reads is
present (so no `KeyError` is raised and the `Unhandled Message Type` branch is
not taken). -/
def dispatchSafe (v : JVal) : Bool :=
  match v with
  | .jobj fs =>
      if (getField fs "cmd").isSome then
        match getField fs "cmd" with
        | some (.jstr c) =>
            cmdKeys.contains c && (cmdReads c).all fun k => (getField fs k).isSome
        | _ => false
      else if (getField fs "reply").isSome then
        match getField fs "reply" with
        | some (.jstr c) =>
            replyKeys.contains c && (replyReads c).all fun k => (getField fs k).isSome
        | _ => false
      else if (getField fs "error").isSome then
        errReads.all fun k => (getField fs k).isSome
      else false
  | _ => false

/-! ## The serializer never emits a frame terminator -/

/-- No `\r` or `\n` occurs in the byte string. -/
def noTerm (l : List Char) : Bool := l.all fun c => !isTerm c

theorem noTerm_append {a b : List Char} :
    noTerm (a ++ b) = (noTerm a && noTerm b) := by
  simp [noTerm, List.all_append]

theorem noTerm_cons {c : Char} {l : List Char} :
    noTerm (c :: l) = (!isTerm c && noTerm l) := by
  simp [noTerm]

theorem noTerm_iff {l : List Char} :
    noTerm l = true ↔ ∀ c ∈ l, isTerm c = false := by
  simp [noTerm, List.all_eq_true]

theorem hexDigit_noTerm : ∀ k < 16, isTerm (hexDigit k) = false := by decide

theorem hex4_noTerm (n : Nat) : noTerm (hex4 n) = true := by
  simp only [hex4, noTerm, List.all_cons, List.all_nil]
  simp [hexDigit_noTerm _ (Nat.mod_lt _ (by norm_num))]

theorem digit_noTerm (r : Nat) (h : r < 10) :
    isTerm (Char.ofNat (48 + r)) = false := by
  interval_cases r <;> decide

theorem digitsAux_noTerm : ∀ fuel n, noTerm (digitsAux fuel n) = true := by
  intro fuel
  induction fuel with
  | zero => intro n; simp [digitsAux, noTerm]
  | succ f ih =>
      intro n
      rw [noTerm_iff]
      intro c hc
      by_cases h : n = 0
      · simp [digitsAux, h] at hc
      · simp only [digitsAux, if_neg h, List.mem_append, List.mem_singleton] at hc
        rcases hc with hc | rfl
        · exact noTerm_iff.1 (ih (n / 10)) c hc
        · exact digit_noTerm _ (Nat.mod_lt _ (by norm_num))

theorem dumpNat_noTerm (n : Nat) : noTerm (dumpNat n) = true := by
  by_cases h : n = 0
  · simp [dumpNat, h]
    decide
  · simp [dumpNat, h, digitsAux_noTerm]

theorem dumpInt_noTerm (n : Int) : noTerm (dumpInt n) = true := by
  cases n with
  | ofNat m => simp [dumpInt, dumpNat_noTerm]
  | negSucc m =>
      rw [dumpInt, noTerm_cons, dumpNat_noTerm]
      decide

theorem hex4_mem (n : Nat) : ∀ c ∈ hex4 n, isTerm c = false :=
  noTerm_iff.1 (hex4_noTerm n)

theorem escChar_noTerm (c : Char) : noTerm (escChar c) = true := by
  rw [noTerm_iff]
  intro x hx
  unfold escChar at hx
  split_ifs at hx with h1 h2 h3 h4 h5 h6 h7 h8 h9
  · simp only [List.mem_cons, List.not_mem_nil, or_false] at hx
    rcases hx with rfl | rfl <;> decide
  · simp only [List.mem_cons, List.not_mem_nil, or_false] at hx
    rcases hx with rfl | rfl <;> decide
  · simp only [List.mem_cons, List.not_mem_nil, or_false] at hx
    rcases hx with rfl | rfl <;> decide
  · simp only [List.mem_cons, List.not_mem_nil, or_false] at hx
    rcases hx with rfl | rfl <;> decide
  · simp only [List.mem_cons, List.not_mem_nil, or_false] at hx
    rcases hx with rfl | rfl <;> decide
  · simp only [List.mem_cons, List.not_mem_nil, or_false] at hx
    rcases hx with rfl | rfl <;> decide
  · simp only [List.mem_cons, List.not_mem_nil, or_false] at hx
    rcases hx with rfl | rfl <;> decide
  · simp only [List.mem_cons, List.not_mem_nil, or_false] at hx
    subst hx
    simp [isTerm, h3, h4]
  · simp only [List.mem_cons] at hx
    rcases hx with rfl | rfl | h
    · decide
    · decide
    · exact hex4_mem _ x h
  · rcases List.mem_append.1 hx with h | h
    · simp only [List.mem_cons] at h
      rcases h with rfl | rfl | h
      · decide
      · decide
      · exact hex4_mem _ x h
    · simp only [List.mem_cons] at h
      rcases h with rfl | rfl | h
      · decide
      · decide
      · exact hex4_mem _ x h

theorem escString_noTerm (l : List Char) : noTerm (escString l) = true := by
  induction l with
  | nil => simp [escString, noTerm]
  | cons c cs ih => simp [escString, noTerm_append, escChar_noTerm, ih]

theorem dumpStr_noTerm (s : String) : noTerm (dumpStr s) = true := by
  rw [dumpStr, noTerm_append, noTerm_cons, escString_noTerm]
  decide

mutual

theorem dumps_noTerm : (v : JVal) → noTerm (dumps v) = true
  | .jnull => by decide
  | .jbool true => by decide
  | .jbool false => by decide
  | .jnum n => by simpa [dumps] using dumpInt_noTerm n
  | .jstr s => by simpa [dumps] using dumpStr_noTerm s
  | .jarr xs => by
      have h := dumpsArr_noTerm xs
      simp only [dumps, noTerm, List.all_cons, List.all_append] at h ⊢
      simp [h]
      decide
  | .jobj fs => by
      have h := dumpsObj_noTerm fs
      simp only [dumps, noTerm, List.all_cons, List.all_append] at h ⊢
      simp [h]
      decide

theorem dumpsArr_noTerm : (xs : List JVal) → noTerm (dumpsArr xs) = true
  | [] => by decide
  | [x] => by simpa [dumpsArr] using dumps_noTerm x
  | x :: y :: xs => by
      have h1 := dumps_noTerm x
      have h2 := dumpsArr_noTerm (y :: xs)
      simp only [dumpsArr, noTerm_append, noTerm, List.all_cons] at h1 h2 ⊢
      simp [h1, h2]
      decide

theorem dumpsObj_noTerm : (fs : List (String × JVal)) → noTerm (dumpsObj fs) = true
  | [] => by decide
  | [(k, v)] => by
      have h1 := dumpStr_noTerm k
      have h2 := dumps_noTerm v
      simp only [dumpsObj, noTerm_append, noTerm, List.all_cons] at h1 h2 ⊢
      simp [h1, h2]
      decide
  | (k, v) :: f :: fs => by
      have h1 := dumpStr_noTerm k
      have h2 := dumps_noTerm v
      have h3 := dumpsObj_noTerm (f :: fs)
      simp only [dumpsObj, noTerm_append, noTerm, List.all_cons] at h1 h2 h3 ⊢
      simp [h1, h2, h3]
      decide

end

theorem digitsAux_ne_nil (n : Nat) (h : n ≠ 0) : digitsAux n n ≠ [] := by
  cases n with
  | zero => exact absurd rfl h
  | succ m =>
      simp only [digitsAux, if_neg h]
      simp

theorem dumps_ne_nil (v : JVal) : dumps v ≠ [] := by
  cases v with
  | jnull => simp [dumps]
  | jbool b => cases b <;> simp [dumps]
  | jnum n =>
      cases n with
      | ofNat m =>
          by_cases h : m = 0
          · simp [dumps, dumpInt, dumpNat, h]
          · simp [dumps, dumpInt, dumpNat, h, digitsAux_ne_nil m h]
      | negSucc m => simp [dumps, dumpInt]
  | jstr s => simp [dumps, dumpStr]
  | jarr xs => simp [dumps]
  | jobj fs => simp [dumps]

/-! ## takeWhile / dropWhile facts for the frame regexes -/

theorem takeWhile_append_all {p : Char → Bool} :
    ∀ l r : List Char, l.all p = true →
      (l ++ r).takeWhile p = l ++ r.takeWhile p := by
  intro l
  induction l with
  | nil => intro r _; simp
  | cons c cs ih =>
      intro r hall
      simp only [List.all_cons, Bool.and_eq_true] at hall
      simp [List.takeWhile_cons, hall.1, ih r hall.2]

theorem dropWhile_append_all {p : Char → Bool} :
    ∀ l r : List Char, l.all p = true →
      (l ++ r).dropWhile p = r.dropWhile p := by
  intro l
  induction l with
  | nil => intro r _; simp
  | cons c cs ih =>
      intro r hall
      simp only [List.all_cons, Bool.and_eq_true] at hall
      simp [List.dropWhile_cons, hall.1, ih r hall.2]

theorem takeWhile_all_self {p : Char → Bool} {l : List Char} (h : l.all p = true) :
    l.takeWhile p = l := by
  have := takeWhile_append_all l [] h
  simpa using this

theorem dropWhile_all_self {p : Char → Bool} {l : List Char} (h : l.all p = true) :
    l.dropWhile p = [] := by
  have := dropWhile_append_all l [] h
  simpa using this

/-- A well-formed CRLF frame at the head of the buffer is split off whole. -/
theorem splitFrame_crlf {m rest : List Char} (hm : noTerm m = true)
    (hlen : m.length ≤ 1022) :
    splitFrame (m ++ '\r' :: '\n' :: rest) = some (m, rest) := by
  have htake : (m ++ '\r' :: '\n' :: rest).takeWhile (fun c => !isTerm c) = m := by
    rw [takeWhile_append_all m _ hm]
    simp [List.takeWhile_cons, isTerm]
  have hdrop : (m ++ '\r' :: '\n' :: rest).dropWhile (fun c => !isTerm c) =
      '\r' :: '\n' :: rest := by
    rw [dropWhile_append_all m _ hm]
    simp [List.dropWhile_cons, isTerm]
  unfold splitFrame
  simp only [htake, hdrop]
  rw [if_neg (by omega)]

/-- A terminator-free buffer matches neither frame regex. -/
theorem splitFrame_none_of_noTerm {s : List Char} (h : noTerm s = true) :
    splitFrame s = none := by
  unfold splitFrame
  simp only [dropWhile_all_self h]
  split <;> simp

theorem ditchFrame_none_of_noTerm {s : List Char} (h : noTerm s = true) :
    ditchFrame s = none := by
  unfold ditchFrame
  simp [dropWhile_all_self h]

/-- If the leading terminator-free run is longer than 1022 bytes, the main
frame regex cannot match. -/
theorem splitFrame_none_of_longRun {s : List Char}
    (h : 1022 < (s.takeWhile (fun c => !isTerm c)).length) :
    splitFrame s = none := by
  unfold splitFrame
  rw [if_pos h]

/-! ## getMsgAux behavior -/

/-- On a buffer beginning with a complete nonempty frame, `getMsg` returns the
frame body and consumes it and its CRLF terminator. -/
theorem getMsgAux_crlf_frame (d : Bool) {m rest : List Char}
    (hm : noTerm m = true) (hne : m ≠ []) (hlen : m.length ≤ 1022) :
    getMsgAux d (m ++ '\r' :: '\n' :: rest) = (some m, rest) := by
  rw [getMsgAux]
  split
  · rename_i m1 rest1 heq
    rw [splitFrame_crlf hm hlen] at heq
    simp only [Option.some.injEq, Prod.mk.injEq] at heq
    rcases heq with ⟨rfl, rfl⟩
    simp [hne]
  · rename_i heq
    rw [splitFrame_crlf hm hlen] at heq
    simp at heq

/-- On a terminator-free buffer, `getMsg` returns `None` (or the disconnect
sentinel when dead) and keeps only the trailing `MAX_JSON_MSG` bytes. -/
theorem getMsgAux_noTerm (d : Bool) {buf : List Char} (h : noTerm buf = true) :
    getMsgAux d buf =
      ((if d then some [] else none), buf.drop (buf.length - MAX_JSON_MSG)) := by
  rw [getMsgAux]
  split
  · rename_i m1 rest1 heq
    rw [splitFrame_none_of_noTerm h] at heq
    simp at heq
  · simp only [ditchFrame_none_of_noTerm h]
    by_cases hb : buf = []
    · subst hb; cases d <;> simp
    · simp only [List.isEmpty_eq_true, hb, if_false]
      cases d <;> simp [hb]

/-- An LF-terminated frame at the head of the buffer. -/
theorem splitFrame_lf {m rest : List Char} (hm : noTerm m = true)
    (hlen : m.length ≤ 1022) :
    splitFrame (m ++ '\n' :: rest) = some (m, rest) := by
  have htake : (m ++ '\n' :: rest).takeWhile (fun c => !isTerm c) = m := by
    rw [takeWhile_append_all m _ hm]
    simp [List.takeWhile_cons, isTerm]
  have hdrop : (m ++ '\n' :: rest).dropWhile (fun c => !isTerm c) =
      '\n' :: rest := by
    rw [dropWhile_append_all m _ hm]
    simp [List.dropWhile_cons, isTerm]
  unfold splitFrame
  simp only [htake, hdrop]
  rw [if_neg (by omega)]

theorem getMsgAux_lf_frame (d : Bool) {m rest : List Char}
    (hm : noTerm m = true) (hne : m ≠ []) (hlen : m.length ≤ 1022) :
    getMsgAux d (m ++ '\n' :: rest) = (some m, rest) := by
  rw [getMsgAux]
  split
  · rename_i m1 rest1 heq
    rw [splitFrame_lf hm hlen] at heq
    simp only [Option.some.injEq, Prod.mk.injEq] at heq
    rcases heq with ⟨rfl, rfl⟩
    simp [hne]
  · rename_i heq
    rw [splitFrame_lf hm hlen] at heq
    simp at heq

/-- Empty frames (bare terminators) are skipped. -/
theorem getMsgAux_skip_lf (d : Bool) (rest : List Char) :
    getMsgAux d ('\n' :: rest) = getMsgAux d rest := by
  have hsf : splitFrame ('\n' :: rest) = some ([], rest) := rfl
  rw [getMsgAux]
  split
  · rename_i m1 rest1 heq
    rw [hsf] at heq
    simp only [Option.some.injEq, Prod.mk.injEq] at heq
    rcases heq with ⟨rfl, rfl⟩
    simp
  · rename_i heq
    rw [hsf] at heq
    simp at heq

/-- The no-match branch of `getMsg`, without assumptions on the buffer. -/
theorem getMsgAux_split_none (d : Bool) {buf : List Char}
    (h : splitFrame buf = none) :
    getMsgAux d buf =
      ((if d then some [] else none),
        if buf.isEmpty then buf
        else
          match ditchFrame buf with
          | none => buf.drop (buf.length - MAX_JSON_MSG)
          | some rest => rest) := by
  rw [getMsgAux]
  split
  · rename_i m1 rest1 heq
    rw [h] at heq
    simp at heq
  · cases d <;> rfl

/-- `recv` on a live socket that delivers data appends to the inbound buffer. -/
theorem recv_data {st : SBState} (h1 : st.disconnect = false)
    (h2 : st.broken = false) {l : List Char} (hne : l ≠ []) :
    st.recv (some l) = { st with recvBuffer := st.recvBuffer ++ l } := by
  cases l with
  | nil => exact absurd rfl hne
  | cons c cs => simp [SBState.recv, h1, h2]

/-- `recv` is a no-op once disconnected. -/
theorem recv_disconnected {st : SBState} (h : st.disconnect = true) (r) :
    st.recv r = st := by
  simp [SBState.recv, h]

/-- The receive loop exits at once when `hasMsg` is false. -/
theorem receiveMsgLoop_exit {st : SBState} (h : st.hasMsg = false)
    (acc : List (List Char)) :
    receiveMsgLoop st acc = ⟨st, some (decide (acc ≠ [])), 0, acc⟩ := by
  rw [receiveMsgLoop]
  simp [h]

/-- The receive loop stops with one `connectionDrop` on the sentinel. -/
theorem receiveMsgLoop_sentinel {st : SBState} (hh : st.hasMsg = true)
    {st3 : SBState} (hg : st.getMsgS = (some [], st3))
    (acc : List (List Char)) :
    receiveMsgLoop st acc = ⟨st3, none, 1, acc⟩ := by
  rw [receiveMsgLoop]
  simp only [hh, if_true]
  split
  · rename_i heq
    rw [hg] at heq
    simp at heq
  · rename_i st4 heq
    rw [hg] at heq
    simp only [Prod.mk.injEq, Option.some.injEq] at heq
    rw [heq.2]
  · rename_i c m st4 heq
    rw [hg] at heq
    simp at heq

/-- The receive loop processes one extracted message and continues. -/
theorem receiveMsgLoop_msg {st : SBState} (hh : st.hasMsg = true)
    {c : Char} {m : List Char} {st3 : SBState}
    (hg : st.getMsgS = (some (c :: m), st3)) (acc : List (List Char)) :
    receiveMsgLoop st acc = receiveMsgLoop st3 (acc ++ [c :: m]) := by
  rw [receiveMsgLoop]
  simp only [hh, if_true]
  split
  · rename_i heq
    rw [hg] at heq
    simp at heq
  · rename_i st4 heq
    rw [hg] at heq
    simp at heq
  · rename_i c2 m2 st4 heq
    rw [hg] at heq
    simp only [Prod.mk.injEq, Option.some.injEq, List.cons.injEq] at heq
    obtain ⟨⟨rfl, rfl⟩, rfl⟩ := heq
    rfl

/-! ## Close-loop and dead-state machinery -/

/-- Once the buffer is dead with bytes still queued, the flush loop of
`close` can never exit: `send` no longer drains anything. -/
theorem closeLoop_dead_stuck :
    ∀ (oks : List Bool) (st : SBState), st.dead = true →
      st.sendBuffer ≠ [] → closeLoop oks st = none := by
  intro oks
  induction oks with
  | nil =>
      intro st _ hne
      simp [closeLoop, hne]
  | cons ok rest ih =>
      intro st hd hne
      have hstep : st.sendStep ok = ([], st) := by
        simp [SBState.sendStep, hd]
      simp only [closeLoop, List.isEmpty_eq_true, hne, if_false, hstep]
      exact ih st hd hne

/-- A sequence of empty frames (each a bare `\n` or `\r\n`). -/
inductive EmptyFrames : List Char → Prop
  | nil : EmptyFrames []
  | lf {l : List Char} : EmptyFrames l → EmptyFrames ('\n' :: l)
  | crlf {l : List Char} : EmptyFrames l → EmptyFrames ('\r' :: '\n' :: l)

/-- One abstract operation on a `SocketBuffer`. -/
inductive SBOp where
  | opRecv (r : Option (List Char))
  | opSend (ok : Bool)
  | opAdd (m : List Char)
  | opGetMsg
  | opClose (oks : List Bool)

/-- Apply one operation to the buffer state (for `opClose`, a flush loop that
never exits leaves the state as a degenerate fixpoint; on a dead buffer
`close` always terminates at once). -/
def SBState.step (st : SBState) : SBOp → SBState
  | .opRecv r => st.recv r
  | .opSend ok => (st.sendStep ok).2
  | .opAdd m => st.addMessage m
  | .opGetMsg => st.getMsgS.2
  | .opClose oks => (st.close oks).getD st

/-- Apply a sequence of operations. -/
def SBState.steps (st : SBState) (ops : List SBOp) : SBState :=
  ops.foldl SBState.step st

theorem dead_recv {st : SBState} (h : st.dead = true) (r : Option (List Char)) :
    (st.recv r).dead = true := by
  unfold SBState.recv
  split
  · exact h
  · rename_i hguard
    have hclosed : st.closed = true := by
      simp only [SBState.dead, Bool.or_eq_true] at h
      rcases h with (h | h) | h <;> simp_all
    cases r with
    | none => simp [SBState.dead]
    | some l =>
        cases l with
        | nil => simp [SBState.dead]
        | cons c cs => simp [SBState.dead, hclosed]

theorem dead_sendStep {st : SBState} (h : st.dead = true) (ok : Bool) :
    st.sendStep ok = ([], st) := by
  simp [SBState.sendStep, h]

theorem dead_addMessage {st : SBState} (h : st.dead = true) (m : List Char) :
    st.addMessage m = st := by
  simp [SBState.addMessage, h]

theorem dead_getMsgS {st : SBState} (h : st.dead = true) :
    st.getMsgS.2.dead = true := by
  simp [SBState.getMsgS, SBState.dead] at h ⊢
  exact h

theorem dead_close {st : SBState} (h : st.dead = true) (oks : List Bool) :
    st.close oks = some { st with closed := true } := by
  simp [SBState.close, h]

theorem dead_step {st : SBState} (h : st.dead = true) (op : SBOp) :
    (st.step op).dead = true := by
  cases op with
  | opRecv r => exact dead_recv h r
  | opSend ok => rw [SBState.step, dead_sendStep h]; exact h
  | opAdd m => rw [SBState.step, dead_addMessage h]; exact h
  | opGetMsg => exact dead_getMsgS h
  | opClose oks =>
      rw [SBState.step, dead_close h]
      simp [SBState.dead]

theorem dead_steps {st : SBState} (h : st.dead = true) (ops : List SBOp) :
    (st.steps ops).dead = true := by
  induction ops generalizing st with
  | nil => exact h
  | cons op ops ih => exact ih (dead_step h op)

/-! ## Claim theorems -/

/-- C6: Inbound frame extraction.  On a live (non-dead) buffer, whenever
`getMsg` returns a message it is nonempty (never the `''` sentinel), holds at
most 1022 non-terminator bytes, and is the first frame of the buffer: the
buffer is exactly a run of skipped empty frames, then the message, then its
mandatory `\n` terminator (optionally preceded by `\r`), then the retained
remainder. -/
theorem c6_frame_extraction :
    ∀ (buf m rest : List Char), getMsgAux false buf = (some m, rest) →
      m ≠ [] ∧ m.length ≤ 1022 ∧ noTerm m = true ∧
        ∃ pre t, EmptyFrames pre ∧ (t = ['\n'] ∨ t = ['\r', '\n']) ∧
          buf = pre ++ (m ++ (t ++ rest)) := by
  have key : ∀ (n : Nat) (buf m rest : List Char), buf.length ≤ n →
      getMsgAux false buf = (some m, rest) →
      m ≠ [] ∧ m.length ≤ 1022 ∧ noTerm m = true ∧
        ∃ pre t, EmptyFrames pre ∧ (t = ['\n'] ∨ t = ['\r', '\n']) ∧
          buf = pre ++ (m ++ (t ++ rest)) := by
    intro n
    induction n with
    | zero =>
        intro buf m rest hlen h
        have hb : buf = [] := List.eq_nil_of_length_eq_zero (by omega)
        subst hb
        rw [getMsgAux] at h
        split at h
        · rename_i heq
          simp [splitFrame] at heq
        · simp at h
    | succ n ih =>
        intro buf m rest hlen h
        rw [getMsgAux] at h
        split at h
        · rename_i m0 rest0 heq
          obtain ⟨hm0, hlen0, hdec⟩ := splitFrame_eq_some heq
          have hnt0 : noTerm m0 = true := by
            rw [noTerm_iff]
            intro c hc
            rw [hm0] at hc
            have := List.mem_takeWhile_imp hc
            simpa using this
          have hlt := splitFrame_rest_lt heq
          split at h
          · rename_i hm0e
            have hm0nil : m0 = [] := by simpa using hm0e
            subst hm0nil
            obtain ⟨hne, hlenm, hntm, pre, t, hef, ht, hdecomp⟩ :=
              ih rest0 m rest (by omega) h
            refine ⟨hne, hlenm, hntm, ?_⟩
            rcases hdec with hbuf | hbuf
            · exact ⟨'\n' :: pre, t, EmptyFrames.lf hef, ht, by
                simp only [List.nil_append] at hbuf
                rw [hbuf, hdecomp]; rfl⟩
            · exact ⟨'\r' :: '\n' :: pre, t, EmptyFrames.crlf hef, ht, by
                simp only [List.nil_append] at hbuf
                rw [hbuf, hdecomp]; rfl⟩
          · rename_i hm0e
            have hm0ne : m0 ≠ [] := by simpa using hm0e
            obtain ⟨rfl, rfl⟩ : m0 = m ∧ rest0 = rest := by
              simpa using h
            refine ⟨hm0ne, hlen0, hnt0, [], ?_⟩
            rcases hdec with hbuf | hbuf
            · exact ⟨['\n'], .nil, Or.inl rfl, by simpa using hbuf⟩
            · exact ⟨['\r', '\n'], .nil, Or.inr rfl, by simpa using hbuf⟩
        · simp at h
  intro buf m rest h
  exact key buf.length buf m rest le_rfl h

/-- C6 witness: on the buffer `"\nhi\r\nr"` the live `getMsg` skips the empty
frame, returns `"hi"`, and retains `"r"`; the conclusion of
`c6_frame_extraction` holds there. -/
theorem c6_frame_extraction_witness :
    ['h', 'i'] ≠ ([] : List Char) ∧ ([ 'h', 'i'] : List Char).length ≤ 1022 ∧
      noTerm ['h', 'i'] = true ∧
      ∃ pre t, EmptyFrames pre ∧ (t = ['\n'] ∨ t = ['\r', '\n']) ∧
        ('\n' :: 'h' :: 'i' :: '\r' :: '\n' :: 'r' :: []) =
          pre ++ (['h', 'i'] ++ (t ++ ['r'])) := by
  have hget : getMsgAux false ('\n' :: 'h' :: 'i' :: '\r' :: '\n' :: 'r' :: []) =
      (some ['h', 'i'], ['r']) := by
    rw [getMsgAux_skip_lf]
    exact @getMsgAux_crlf_frame false ['h', 'i'] ['r'] (by decide) (by decide)
      (by decide)
  exact c6_frame_extraction _ _ _ hget

/-- C1: Round-trip through builder and codec.  For every message built by an
`IRCMessage` builder that `sendMsg` accepts on a live buffer, the enqueued
bytes are exactly the compact serialization plus CRLF, the message validates
against the schema, and feeding those bytes to a live `SocketBuffer` makes
`getMsg` return exactly the serialized message with nothing left over. -/
theorem c1_roundtrip (M : JVal) (hb : IsBuilderMsg M) (st st2 : SBState)
    (hlive : st.dead = false) (hs : sendMsg st M = .ok st2) :
    st2.sendBuffer = st.sendBuffer ++ (dumps M ++ '\r' :: '\n' :: []) ∧
    validate M = true ∧
    getMsgAux false (dumps M ++ '\r' :: '\n' :: []) = (some (dumps M), []) := by
  unfold sendMsg at hs
  by_cases hv : validate M = true
  · rw [if_pos hv] at hs
    have hs2 : (if 1024 < (dumps M ++ '\r' :: '\n' :: []).length then
        (Except.error SendErr.tooLong : Except SendErr SBState)
      else .ok (st.addMessage (dumps M ++ '\r' :: '\n' :: []))) = .ok st2 := hs
    rcases Nat.lt_or_ge 1024 (dumps M ++ '\r' :: '\n' :: []).length with hl | hl
    · rw [if_pos hl] at hs2
      cases hs2
    · rw [if_neg (Nat.not_lt.2 hl)] at hs2
      have hst2 : st2 = st.addMessage (dumps M ++ '\r' :: '\n' :: []) := by
        simp only [Except.ok.injEq] at hs2
        exact hs2.symm
      have hlen : (dumps M).length ≤ 1022 := by
        simp only [List.length_append, List.length_cons, List.length_nil] at hl
        omega
      subst hst2
      refine ⟨?_, hv, ?_⟩
      · simp [SBState.addMessage, hlive]
      · exact getMsgAux_crlf_frame false (dumps_noTerm M) (dumps_ne_nil M) hlen
  · rw [if_neg hv] at hs
    cases hs

/-- C1 witness: the ping message built from src `"a"` and nonce `"x"`,
enqueued on a fresh live buffer. -/
theorem c1_roundtrip_witness :
    ((⟨[], [], false, false, false⟩ : SBState).addMessage
        (dumps (cmdPing "a" "x") ++ '\r' :: '\n' :: [])).sendBuffer =
      [] ++ (dumps (cmdPing "a" "x") ++ '\r' :: '\n' :: []) ∧
    validate (cmdPing "a" "x") = true ∧
    getMsgAux false (dumps (cmdPing "a" "x") ++ '\r' :: '\n' :: []) =
      (some (dumps (cmdPing "a" "x")), []) :=
  c1_roundtrip (cmdPing "a" "x") (IsBuilderMsg.ping "a" "x")
    ⟨[], [], false, false, false⟩
    ((⟨[], [], false, false, false⟩ : SBState).addMessage
      (dumps (cmdPing "a" "x") ++ '\r' :: '\n' :: []))
    rfl rfl

/-- C2 counterexample: a `users` command with no `channels` field at all
passes schema validation, contradicting the claim that such a message is
rejected (the `users` variant of the schema has no `required` list). -/
theorem c2_counterexample :
    validate (.jobj [("cmd", .jstr "users"), ("src", .jstr "a")]) = true := by
  decide

/-- C2 (amended): validation does reject missing fields that the schema marks
required, wrong primitive types, names violating the nick/channel regex,
empty arrays under `minItems: 1`, and duplicate array elements; but it
accepts unknown top-level keys, a `users` command without `channels`, and a
`names` reply without `channel`. -/
theorem c2_validation_strictness :
    validate (.jobj [("cmd", .jstr "quit"), ("src", .jstr "a")]) = false ∧
    validate (.jobj [("cmd", .jstr "nick"), ("src", .jstr "a"),
      ("update", .jbool true)]) = false ∧
    validate (.jobj [("cmd", .jstr "ping"), ("src", .jstr "b@d!"),
      ("msg", .jstr "x")]) = false ∧
    validate (.jobj [("cmd", .jstr "ping"), ("src", .jstr "toolongnick1"),
      ("msg", .jstr "x")]) = false ∧
    validate (.jobj [("cmd", .jstr "join"), ("src", .jstr "a"),
      ("channels", .jarr [])]) = false ∧
    validate (.jobj [("cmd", .jstr "join"), ("src", .jstr "a"),
      ("channels", .jarr [.jstr "#a", .jstr "#a"])]) = false ∧
    validate (.jobj [("junk", .jnull), ("cmd", .jstr "ping"),
      ("src", .jstr "a"), ("msg", .jstr "x")]) = true ∧
    validate (.jobj [("cmd", .jstr "users"), ("src", .jstr "a"),
      ("channels", .jarr [.jstr "#a"])]) = true ∧
    validate (.jobj [("reply", .jstr "names"), ("names", .jarr [])]) = true := by
  decide

/-- C9: Total dispatch on validated input fails: `{"cmd":"users","src":"a"}`
passes schema validation, yet the `users` handler lambda reads
`msg['channels']` (and `msg['client']`), which are absent, so dispatch raises
`KeyError` — the schema omits a `required` list for `users` although both the
spec and the handler treat `channels` (and `client`) as required. -/
theorem c9_dispatch_not_total :
    validate (.jobj [("cmd", .jstr "users"), ("src", .jstr "a")]) = true ∧
    dispatchSafe (.jobj [("cmd", .jstr "users"), ("src", .jstr "a")]) = false ∧
    (getField [("cmd", JVal.jstr "users"), ("src", JVal.jstr "a")]
      "channels").isSome = false ∧
    validate (.jobj [("reply", .jstr "names"), ("names", .jarr [])]) = true ∧
    dispatchSafe (.jobj [("reply", .jstr "names"), ("names", .jarr [])]) =
      false := by
  decide

/-- C5 (amended): on a live buffer, `sendMsg` appends exactly the compact
serialization plus CRLF when the message validates and the frame fits in
1024 bytes, raises the too-long error when it validates but does not fit,
and raises the invalid-message error when validation fails — and these three
cases are exhaustive. -/
theorem c5_enqueue (st : SBState) (msg : JVal) (hlive : st.dead = false) :
    ((validate msg = true ∧ (dumps msg ++ '\r' :: '\n' :: []).length ≤ 1024) →
      sendMsg st msg = .ok
        { st with sendBuffer := st.sendBuffer ++ (dumps msg ++ '\r' :: '\n' :: []) }) ∧
    ((validate msg = true ∧ 1024 < (dumps msg ++ '\r' :: '\n' :: []).length) →
      sendMsg st msg = .error .tooLong) ∧
    (validate msg = false → sendMsg st msg = .error (.invalidMsg msg)) := by
  refine ⟨?_, ?_, ?_⟩
  · rintro ⟨hv, hl⟩
    simp only [sendMsg, hv, if_true]
    rw [if_neg (by omega)]
    simp [SBState.addMessage, hlive]
  · rintro ⟨hv, hl⟩
    simp only [sendMsg, hv, if_true]
    rw [if_pos hl]
  · intro hv
    simp [sendMsg, hv]

/-- C5 witness: a small valid ping on a fresh live buffer is enqueued as its
compact serialization plus CRLF. -/
theorem c5_enqueue_witness :
    sendMsg ⟨[], [], false, false, false⟩ (cmdPing "a" "x") = .ok
      { (⟨[], [], false, false, false⟩ : SBState) with
        sendBuffer := [] ++ (dumps (cmdPing "a" "x") ++ '\r' :: '\n' :: []) } := by
  have h := c5_enqueue ⟨[], [], false, false, false⟩ (cmdPing "a" "x") rfl
  exact h.1 ⟨by decide, by decide⟩

/-- C5 counterexample: on a dead (closed) buffer with a valid small message,
`sendMsg` neither raises `InvalidIRCMessage` nor changes the outbound buffer
(`addMessage` silently drops the frame), so the claimed dichotomy fails for
that socket buffer. -/
theorem c5_counterexample :
    sendMsg ⟨[], [], false, false, true⟩ (cmdPing "a" "x") =
      .ok ⟨[], [], false, false, true⟩ ∧
    dumps (cmdPing "a" "x") ++ '\r' :: '\n' :: [] ≠ ([] : List Char) := by
  constructor
  · simp only [sendMsg]
    rw [if_pos (by decide), if_neg (by decide)]
    rfl
  · simp

/-- 2000 terminator-less junk bytes (spec scenario: oversized garbage). -/
def junk2000 : List Char := List.replicate 2000 'a'

theorem junk2000_noTerm : noTerm junk2000 = true := by
  rw [noTerm_iff]
  intro c hc
  have := List.eq_of_mem_replicate hc
  subst this
  decide

theorem junk2000_length : junk2000.length = 2000 := by
  rw [junk2000, List.length_replicate]

theorem junk2000_ne_nil : junk2000 ≠ [] := by
  intro h
  have := junk2000_length
  rw [h] at this
  simp at this

/-- C4: Bounded inbound buffer invariant fails.  A single `receiveMsg` on a
fresh live connection that reads 2000 terminator-less bytes completes
normally (returns `False`, drops nothing, processes nothing) yet leaves all
2000 bytes — more than 1 KiB with no terminator — in the retained receive
buffer: `hasMsg` is false on such a buffer, so `getMsg` (the only place that
truncates) is never called. -/
theorem c4_unbounded_buffer :
    (receiveMsg ⟨[], [], false, false, false⟩ (some junk2000)).state.recvBuffer
        = junk2000 ∧
    noTerm junk2000 = true ∧
    1024 < junk2000.length ∧
    (receiveMsg ⟨[], [], false, false, false⟩ (some junk2000)).result =
      some false ∧
    (receiveMsg ⟨[], [], false, false, false⟩ (some junk2000)).drops = 0 := by
  have hrecv : (⟨[], [], false, false, false⟩ : SBState).recv (some junk2000) =
      ⟨[], [] ++ junk2000, false, false, false⟩ :=
    recv_data rfl rfl junk2000_ne_nil
  have hbuf : ([] : List Char) ++ junk2000 = junk2000 := by simp
  have hhas : (⟨[], [] ++ junk2000, false, false, false⟩ : SBState).hasMsg
      = false := by
    simp only [SBState.hasMsg, SBState.dead]
    rw [hbuf, splitFrame_none_of_noTerm junk2000_noTerm]
    rfl
  unfold receiveMsg
  rw [hrecv, receiveMsgLoop_exit hhas]
  refine ⟨hbuf, junk2000_noTerm, ?_, rfl, rfl⟩
  rw [junk2000_length]
  omega

/-- The serialized framed ping used as the "next well-formed frame". -/
def pingFrame : List Char := dumps (cmdPing "a" "x") ++ '\r' :: '\n' :: []

theorem pingFrame_ne_nil : pingFrame ≠ [] := by
  unfold pingFrame
  intro h
  have h2 := congrArg List.length h
  rw [List.length_append] at h2
  simp only [List.length_cons, List.length_nil, List.length_nil] at h2
  omega

/-- C3: Resynchronization after oversized garbage fails.  With 2000
terminator-less bytes retained on a live connection, the buffer is never
reduced (it still holds all 2000 bytes plus whatever arrives next, well over
the claimed 1024), and when a well-formed terminated frame then arrives,
`receiveMsg` does not extract or process it: the leading 1022-byte window
of the regex cannot reach the terminator, `hasMsg` stays false, and the
truncation branch of `getMsg` is never reached.  The connection does stay
open. -/
theorem c3_no_resynchronization :
    (receiveMsg ⟨[], junk2000, false, false, false⟩ (some pingFrame)).processed
        = [] ∧
    (receiveMsg ⟨[], junk2000, false, false, false⟩ (some pingFrame)).state.recvBuffer
        = junk2000 ++ pingFrame ∧
    (receiveMsg ⟨[], junk2000, false, false, false⟩ (some pingFrame)).state.dead
        = false ∧
    1024 < (junk2000 ++ pingFrame).length ∧
    (receiveMsg ⟨[], junk2000, false, false, false⟩ (some pingFrame)).drops
        = 0 := by
  have hrecv : (⟨[], junk2000, false, false, false⟩ : SBState).recv
      (some pingFrame) = ⟨[], junk2000 ++ pingFrame, false, false, false⟩ :=
    recv_data rfl rfl pingFrame_ne_nil
  have hlong : 1022 <
      ((junk2000 ++ pingFrame).takeWhile (fun c => !isTerm c)).length := by
    rw [takeWhile_append_all junk2000 pingFrame junk2000_noTerm]
    rw [List.length_append, junk2000_length]
    omega
  have hhas : (⟨[], junk2000 ++ pingFrame, false, false, false⟩ : SBState).hasMsg
      = false := by
    simp only [SBState.hasMsg, SBState.dead]
    rw [splitFrame_none_of_longRun hlong]
    rfl
  unfold receiveMsg
  rw [hrecv, receiveMsgLoop_exit hhas]
  refine ⟨rfl, rfl, rfl, ?_, rfl⟩
  rw [List.length_append, junk2000_length]
  omega

/-- When the buffer is dead and the head regex cannot match, `getMsg` yields
the disconnect sentinel and the state stays dead. -/
theorem getMsgS_dead_noFrame {st : SBState} (hd : st.dead = true)
    (h3 : splitFrame st.recvBuffer = none) :
    ∃ st3, st.getMsgS = (some [], st3) ∧ st3.dead = true ∧
      st3.sendBuffer = st.sendBuffer := by
  refine ⟨{ st with recvBuffer := (getMsgAux st.dead st.recvBuffer).2 }, ?_, ?_, rfl⟩
  · simp only [SBState.getMsgS]
    rw [hd, getMsgAux_split_none true h3]
    simp
  · simp only [SBState.dead] at hd ⊢
    exact hd

/-- C7 (amended): a zero-byte read on a connection that is neither
disconnected nor broken marks it disconnected; thereafter `hasMsg` is true,
and provided no complete frame is pending in the receive buffer, `getMsg`
returns the disconnect sentinel `''` and the next `receiveMsg` invokes
`connectionDrop` exactly once, processing no message.  (With a pending
complete frame, that frame is processed first — see the counterexample.) -/
theorem c7_clean_disconnect (st : SBState) (h1 : st.disconnect = false)
    (h2 : st.broken = false) (h3 : splitFrame st.recvBuffer = none) :
    (st.recv (some [])).disconnect = true ∧
    (st.recv (some [])).hasMsg = true ∧
    (st.recv (some [])).getMsgS.1 = some [] ∧
    ∀ r, (receiveMsg (st.recv (some [])) r).drops = 1 ∧
      (receiveMsg (st.recv (some [])) r).processed = [] ∧
      (receiveMsg (st.recv (some [])) r).result = none := by
  have hrecv : st.recv (some []) = { st with disconnect := true } := by
    simp [SBState.recv, h1, h2]
  have hd : ({ st with disconnect := true } : SBState).dead = true := by
    simp [SBState.dead]
  have h3b : splitFrame ({ st with disconnect := true } : SBState).recvBuffer
      = none := h3
  obtain ⟨st3, hg, hd3, _⟩ := getMsgS_dead_noFrame hd h3b
  have hhas : ({ st with disconnect := true } : SBState).hasMsg = true := by
    simp [SBState.hasMsg, hd]
  rw [hrecv]
  refine ⟨rfl, hhas, by rw [hg], ?_⟩
  intro r
  unfold receiveMsg
  rw [recv_disconnected rfl r, receiveMsgLoop_sentinel hhas hg]
  exact ⟨rfl, rfl, rfl⟩

/-- C7 witness: a fresh live connection with an empty receive buffer. -/
theorem c7_clean_disconnect_witness :
    ((⟨[], [], false, false, false⟩ : SBState).recv (some [])).disconnect
        = true ∧
    ((⟨[], [], false, false, false⟩ : SBState).recv (some [])).hasMsg = true ∧
    ((⟨[], [], false, false, false⟩ : SBState).recv (some [])).getMsgS.1
        = some [] ∧
    (receiveMsg ((⟨[], [], false, false, false⟩ : SBState).recv (some []))
        none).drops = 1 := by
  obtain ⟨ha, hb, hc, hd⟩ :=
    c7_clean_disconnect ⟨[], [], false, false, false⟩ rfl rfl rfl
  exact ⟨ha, hb, hc, (hd none).1⟩

/-- C7 counterexample: a buffer still holding the complete frame `"a\n"` at
disconnect time.  `getMsg` returns the frame `"a"`, not the sentinel, and the
next `receiveMsg` processes that message before dropping the connection — the
claim says it returns the sentinel and drops instead of processing. -/
theorem c7_counterexample :
    ((⟨[], ['a', '\n'], false, false, false⟩ : SBState).recv
        (some [])).getMsgS.1 = some ['a'] ∧
    (receiveMsg ((⟨[], ['a', '\n'], false, false, false⟩ : SBState).recv
        (some [])) none).processed = [['a']] ∧
    (receiveMsg ((⟨[], ['a', '\n'], false, false, false⟩ : SBState).recv
        (some [])) none).drops = 1 := by
  have hrecv : (⟨[], ['a', '\n'], false, false, false⟩ : SBState).recv
      (some []) = ⟨[], ['a', '\n'], true, false, false⟩ := rfl
  have hga : getMsgAux true ['a', '\n'] = (some ['a'], []) :=
    @getMsgAux_lf_frame true ['a'] [] (by decide) (by decide) (by decide)
  have hg : (⟨[], ['a', '\n'], true, false, false⟩ : SBState).getMsgS =
      (some ['a'], ⟨[], [], true, false, false⟩) := by
    show ((getMsgAux true ['a', '\n']).1,
      { (⟨[], ['a', '\n'], true, false, false⟩ : SBState) with
        recvBuffer := (getMsgAux true ['a', '\n']).2 }) = _
    rw [hga]
  have hga3 : getMsgAux true [] = (some [], []) := by
    rw [getMsgAux_noTerm true (by decide)]
    simp
  have hg3 : (⟨[], [], true, false, false⟩ : SBState).getMsgS =
      (some [], ⟨[], [], true, false, false⟩) := by
    show ((getMsgAux true []).1,
      { (⟨[], [], true, false, false⟩ : SBState) with
        recvBuffer := (getMsgAux true []).2 }) = _
    rw [hga3]
  have hhas : (⟨[], ['a', '\n'], true, false, false⟩ : SBState).hasMsg
      = true := by decide
  have hhas3 : (⟨[], [], true, false, false⟩ : SBState).hasMsg = true := by
    decide
  refine ⟨by rw [hrecv, hg], ?_, ?_⟩ <;>
    rw [hrecv, receiveMsg, recv_disconnected rfl none,
      receiveMsgLoop_msg hhas hg, receiveMsgLoop_sentinel hhas3 hg3] <;>
    simp


theorem isEmpty_false_of_ne_nil {l : List Char} (h : l ≠ []) :
    l.isEmpty = false := by
  cases l with
  | nil => exact absurd rfl h
  | cons c cs => rfl

theorem drop_replicate_char (a : Char) :
    ∀ n m, (List.replicate (n + m) a).drop n = List.replicate m a := by
  intro n
  induction n with
  | zero => intro m; simp
  | succ k ih =>
      intro m
      rw [show k + 1 + m = (k + m) + 1 from by omega, List.replicate_succ,
        List.drop_succ_cons]
      exact ih m

/-- A failing `socket.send` on a live buffer with a nonempty payload: the
buffer is truncated first, then the error marks the socket broken. -/
theorem sendStep_fail {st : SBState} (hd : st.dead = false)
    (hne : st.sendBuffer.take RWSIZE ≠ []) :
    st.sendStep false =
      ([], SBState.mk (st.sendBuffer.drop RWSIZE) st.recvBuffer st.disconnect
        true st.closed) := by
  simp only [SBState.sendStep, hd]
  simp [isEmpty_false_of_ne_nil hne]

/-- C8: Close semantics fail to terminate.  On a live buffer whose outbound
buffer holds `RWSIZE + 1` bytes, when the first underlying `socket.send`
raises (marking the socket broken with one byte still queued), the
flush loop `while len(sendBuffer): send()` of `close` can never exit — `send` is a
no-op on a dead buffer — so `close` diverges for every schedule of
subsequent send outcomes, never reaching `socket.close()`. -/
theorem c8_close_diverges :
    ∀ oks : List Bool,
      SBState.close ⟨List.replicate (RWSIZE + 1) 'a', [], false, false, false⟩
        (false :: oks) = none := by
  intro oks
  have hrw : RWSIZE = 4096 := rfl
  have hd0 : (⟨List.replicate (RWSIZE + 1) 'a', [], false, false, false⟩ :
      SBState).dead = false := rfl
  have htake : (⟨List.replicate (RWSIZE + 1) 'a', [], false, false, false⟩ :
      SBState).sendBuffer.take RWSIZE ≠ [] := by
    show (List.replicate (RWSIZE + 1) 'a').take RWSIZE ≠ []
    intro h
    have h2 := congrArg List.length h
    rw [List.length_take, List.length_replicate, hrw, List.length_nil] at h2
    omega
  have hne0 : (⟨List.replicate (RWSIZE + 1) 'a', [], false, false, false⟩ :
      SBState).sendBuffer.isEmpty = false := by
    show (List.replicate (RWSIZE + 1) 'a').isEmpty = false
    apply isEmpty_false_of_ne_nil
    intro h
    have h2 := congrArg List.length h
    rw [List.length_replicate, hrw, List.length_nil] at h2
    omega
  have hdropeq : (List.replicate (RWSIZE + 1) 'a').drop RWSIZE = ['a'] := by
    rw [drop_replicate_char 'a' RWSIZE 1]
    rfl
  have hstep2 : ((⟨List.replicate (RWSIZE + 1) 'a', [], false, false, false⟩ :
      SBState).sendStep false).2 =
      SBState.mk ['a'] [] false true false := by
    rw [sendStep_fail hd0 htake, hdropeq]
  have hloop1 : closeLoop (false :: oks)
      (⟨List.replicate (RWSIZE + 1) 'a', [], false, false, false⟩ : SBState) =
      closeLoop oks ((⟨List.replicate (RWSIZE + 1) 'a', [], false, false,
        false⟩ : SBState).sendStep false).2 := by
    simp only [closeLoop]
    rw [if_neg (by simp [hne0])]
  have hfinal : closeLoop oks (SBState.mk ['a'] [] false true false) = none :=
    closeLoop_dead_stuck oks _ rfl (by simp)
  unfold SBState.close
  rw [if_neg (by rw [hd0]; simp)]
  rw [hloop1, hstep2, hfinal]
  rfl

/-- C10: Dead state is absorbing.  Once a `SocketBuffer` is dead
(disconnected, broken, or closed), every sequence of further operations
leaves it dead, `addMessage` leaves the state (and thus the outbound buffer)
unchanged, `send` transmits nothing and changes nothing, and `readyToSend`
is false. -/
theorem c10_dead_absorbing (st : SBState) (h : st.dead = true) :
    (∀ ops : List SBOp, (st.steps ops).dead = true) ∧
    (∀ m, st.addMessage m = st) ∧
    (∀ ok, st.sendStep ok = ([], st)) ∧
    st.readyToSend = false := by
  refine ⟨fun ops => dead_steps h ops, fun m => dead_addMessage h m,
    fun ok => dead_sendStep h ok, ?_⟩
  simp [SBState.readyToSend, h]

/-- C10 witness: a closed buffer, checked on a concrete operation sequence,
queued message, and send attempt. -/
theorem c10_dead_absorbing_witness :
    ((⟨[], [], false, false, true⟩ : SBState).steps
      [SBOp.opRecv (some ['x']), SBOp.opAdd ['y'], SBOp.opSend true,
        SBOp.opGetMsg, SBOp.opClose [true]]).dead = true ∧
    (⟨[], [], false, false, true⟩ : SBState).addMessage ['z'] =
      ⟨[], [], false, false, true⟩ ∧
    (⟨[], [], false, false, true⟩ : SBState).sendStep true =
      ([], ⟨[], [], false, false, true⟩) ∧
    (⟨[], [], false, false, true⟩ : SBState).readyToSend = false := by
  obtain ⟨h1, h2, h3, h4⟩ :=
    c10_dead_absorbing ⟨[], [], false, false, true⟩ rfl
  exact ⟨h1 _, h2 _, h3 _, h4⟩
